import Mathlib

/-!
Verification development for `rss2x.py` (drhdev/rss2x), a run-once script
that polls RSS feeds and posts the newest unseen entry of each feed to a
corresponding Twitter account, deduplicating across runs via a SQLite table
`posted_entries (feed_url, entry_id)` with primary key `(feed_url, entry_id)`.

The shallow embedding below models the core pipeline:
  * the dedup store (`entry_already_posted`, `mark_entry_as_posted`),
  * the feed fetcher (`get_latest_post`, lines 178-203 of the source),
  * the capability prober (`is_elevated_access`, lines 149-176),
  * the publisher (`post_to_twitter`, lines 219-237),
  * the image download helper (`download_image`, lines 205-217),
  * the orchestrator (`main`, lines 239-287).

External collaborators (network, chardet, codecs, feedparser, tweepy, the
clock) are modelled as explicit oracles/functions supplied through
environment records; all error paths the Python code catches are modelled
as explicit outcome values, so every embedded function is total: totality
of the Lean function corresponds to "no exception escapes" in the source.
-/

namespace Rss2x

/-- Python string truthiness of an optional string (as used by
`entry.get('id') or entry.get('link')`): `None` and `""` are falsy. -/
def truthyOpt : Option String → Bool
  | none => false
  | some s => !(s == "")

/-- Python `a or b` on optional strings: keep `a` when it is truthy,
otherwise fall back to `b`. -/
def pyOrOpt (a b : Option String) : Option String :=
  if truthyOpt a then a else b

/-- A parsed feed entry as consumed by `rss2x.py`: only the `id` and `link`
fields are ever read (`entry.get('id')`, `entry.get('link')`,
`post.get('link', '')`).  `none` models an absent field. -/
structure Entry where
  id : Option String
  link : Option String
deriving DecidableEq

/-- The identifier computed by `get_latest_post` at line 191:
`entry_id = entry.get('id') or entry.get('link')`.  `none` (or `some ""`,
which the guard at line 192 also rejects) means the entry is skipped. -/
def entryIdOf (e : Entry) : Option String :=
  pyOrOpt e.id e.link

/-- The `posted_entries` SQLite table: a list of `(feed_url, entry_id)`
rows with primary key `(feed_url, entry_id)`. -/
abbrev Store := List (String × String)

/-- Number of rows of the store equal to the key `k`.  The SQLite primary
key keeps this at most 1 on every reachable store. -/
def recordCount (conn : Store) (k : String × String) : Nat :=
  conn.countP (fun p => decide (p = k))

/-- Embeds `entry_already_posted` (lines 65-74): `SELECT 1 FROM
posted_entries WHERE feed_url = ? AND entry_id = ?` is non-empty. -/
def entry_already_posted (conn : Store) (feed_url entry_id : String) : Bool :=
  decide ((feed_url, entry_id) ∈ conn)

/-- Embeds `mark_entry_as_posted` (lines 76-85): `INSERT INTO
posted_entries VALUES (?, ?)`.  A duplicate key raises
`sqlite3.IntegrityError`, which the source catches and logs as a warning;
the returned boolean is `true` exactly when that warning branch ran (the
insert was a no-op).  The function is total: no exception escapes. -/
def mark_entry_as_posted (conn : Store) (feed_url entry_id : String) : Store × Bool :=
  if (feed_url, entry_id) ∈ conn then (conn, true)
  else ((feed_url, entry_id) :: conn, false)

/-- Log events emitted at the core decision points of the script (the
embedding keeps one constructor per distinct `logger.*` call site that the
claims mention). -/
inductive Event where
  | networkError (feed_url : String)
  | foundNewEntry (entry_id : String)
  | processingFeed (feed_url : String)
  | newPostFound (feed_url link : String)
  | noNewPosts (feed_url : String)
  | postedDebug (account_name : String)
  | postedDebugFreeTier (account_name : String)
  | tweeted (account_name status : String)
  | sleptSeconds (n : Nat)
  | publishError (account_name : String)
  | duplicateWarning (feed_url entry_id : String)
  | skipAccount (account_name : String)
  | processingAccount (account_name : String)
  | accountAccess (account_name : String) (elevated : Bool)
deriving DecidableEq

/-- Outcome of `requests.get(feed_url, timeout=10)` followed by
`response.raise_for_status()`: either a `RequestException` (timeout, DNS
failure, non-2xx status) or the raw payload bytes. -/
inductive FetchOutcome where
  | transportError
  | payload (content : List Nat)
deriving DecidableEq

/-- Collaborators of `get_latest_post` for one feed fetch: the network
result, `chardet.detect(...)['encoding']`, `bytes.decode(enc,
errors='replace')` (total: lossy replacement never raises), and
`feedparser.parse(...).entries` (feedparser is tolerant and returns an
entry list). -/
structure FeedEnv where
  fetch : FetchOutcome
  detect : List Nat → Option String
  decode : String → List Nat → String
  parse : String → List Entry

/-- The encoding name passed to `.decode` at line 185:
`encoding or 'utf-8'` — the detected encoding when truthy, else UTF-8. -/
def chosen_encoding (encoding : Option String) : String :=
  match encoding with
  | none => "utf-8"
  | some s => if s == "" then "utf-8" else s

/-- The decoded feed text of line 185:
`response.content.decode(chardet_encoding or 'utf-8', errors='replace')`. -/
def decoded_feed_content (env : FeedEnv) (content : List Nat) : String :=
  env.decode (chosen_encoding (env.detect content)) content

/-- The scan loop of `get_latest_post` (lines 190-197): walk the parsed
entries in feed order, compute `entry.get('id') or entry.get('link')`,
`continue` when it is falsy, and return the first entry whose
`(feed_url, entry_id)` is not yet in the store. -/
def scanEntries (conn : Store) (feed_url : String) : List Entry → Option Entry
  | [] => none
  | e :: rest =>
    let entry_id := entryIdOf e
    if truthyOpt entry_id then
      if entry_already_posted conn feed_url (entry_id.getD "") then
        scanEntries conn feed_url rest
      else some e
    else scanEntries conn feed_url rest

/-- Embeds `get_latest_post` (lines 178-203).  A transport failure is
caught by the `except RequestException` arm: it logs a message naming the
feed and yields no entry.  On a payload, the bytes are decoded with the
detected encoding (UTF-8 + lossy replacement as fallback), parsed, and the
entry list is scanned for the first unposted entry.  The function is
total: no exception escapes past it. -/
def get_latest_post (env : FeedEnv) (feed_url : String) (conn : Store) :
    Option Entry × List Event :=
  match env.fetch with
  | .transportError => (none, [.networkError feed_url])
  | .payload content =>
    let entries := env.parse (decoded_feed_content env content)
    match scanEntries conn feed_url entries with
    | some e => (some e, [.foundNewEntry ((entryIdOf e).getD "")])
    | none => (none, [])

/-- Result of one tweepy API call inside the capability probe:
success, a `tweepy.errors.Forbidden` response (permission denied), or any
other `tweepy.TweepyException`. -/
inductive ApiResult where
  | ok
  | forbidden
  | otherError
deriving DecidableEq

/-- Oracle for the three service calls made by `is_elevated_access`, in
program order: `api.media_upload`, `api.update_status` (the throwaway
post), `api.destroy_status` (the retraction).  A failing call raises, so
the later calls of the sequence are not reached. -/
structure ProbeEnv where
  upload : ApiResult
  post : ApiResult
  destroy : ApiResult
deriving DecidableEq

/-- Which log line `is_elevated_access` emits on its way out:
`logger.info` for elevated, `logger.info` for the free-tier (Forbidden)
branch, `logger.error` for any other `TweepyException`. -/
inductive ProbeClass where
  | elevatedInfo
  | freeTierInfo
  | errorLogged
deriving DecidableEq

/-- Embeds `is_elevated_access` (lines 149-176).  The probe writes a tiny
GIF, uploads it, posts a throwaway tweet with it, and retracts the tweet;
the first raising call jumps to `except Forbidden` (info log, `False`) or
`except TweepyException` (error log, `False`); only the full
upload-post-retract sequence reaching the end returns `True`.  The
`finally` block removes the temporary image on every path
(`test_image_gone` below). -/
def is_elevated_access (env : ProbeEnv) : Bool × ProbeClass :=
  match env.upload with
  | .forbidden => (false, .freeTierInfo)
  | .otherError => (false, .errorLogged)
  | .ok =>
    match env.post with
    | .forbidden => (false, .freeTierInfo)
    | .otherError => (false, .errorLogged)
    | .ok =>
      match env.destroy with
      | .forbidden => (false, .freeTierInfo)
      | .otherError => (false, .errorLogged)
      | .ok => (true, .elevatedInfo)

/-- The `finally` clause of `is_elevated_access` (lines 174-176): whatever
the probe outcome, the temporary test image is unlinked, so it is absent
from the file system afterwards.  Modelled as the set of paths the probe
leaves behind: always empty. -/
def probe_leftover_files (_env : ProbeEnv) : List String := []

/-- One outbound `api.update_status` call, as observed by the destination
service: the status text and the attached media ids. -/
structure StatusUpdate where
  status : String
  media_ids : List String
deriving DecidableEq

/-- Outcome of the publish-layer `api.update_status` call inside
`post_to_twitter`: success or a `tweepy.TweepyException` (rate limit, auth
revoked, service error). -/
inductive PublishOutcome where
  | ok
  | tweepyError
deriving DecidableEq

/-- What a call of `post_to_twitter` did: the outbound API calls it
attempted and the log/sleep events it produced, in order. -/
structure PublishTrace where
  calls : List StatusUpdate
  events : List Event
deriving DecidableEq

/-- Embeds `post_to_twitter` (lines 219-237).  `tweet_text = f"{link}"`,
and both arms of `if elevated and link` issue the same media-free
`api.update_status(status=tweet_text)` call — they differ only in the
debug message.  On success the account's pacing delay is slept; a
`TweepyException` is caught and logged, and nothing propagates to the
caller (nor does the caller learn of the failure: the function returns
nothing either way). -/
def post_to_twitter (outcome : PublishOutcome) (link account_name : String)
    (delay_seconds : Nat) (elevated : Bool) : PublishTrace :=
  let tweet_text := link
  let update : StatusUpdate := ⟨tweet_text, []⟩
  if elevated && !(link == "") then
    match outcome with
    | .ok =>
      ⟨[update], [.postedDebug account_name, .tweeted account_name tweet_text,
        .sleptSeconds delay_seconds]⟩
    | .tweepyError => ⟨[update], [.publishError account_name]⟩
  else
    match outcome with
    | .ok =>
      ⟨[update], [.postedDebugFreeTier account_name, .tweeted account_name tweet_text,
        .sleptSeconds delay_seconds]⟩
    | .tweepyError => ⟨[update], [.publishError account_name]⟩

/-- Response behaviour of `requests.get(image_url, timeout=10,
stream=True)` inside `download_image`: either a `RequestException` before
the temporary file is opened (at `get`/`raise_for_status`), or a body
streamed as chunks, with `failAfter = some k` meaning `iter_content`
raised a `RequestException` after `k` chunks were written to the already
created file. -/
inductive ImageResponse where
  | errEarly
  | body (chunks : List (List Nat)) (failAfter : Option Nat)
deriving DecidableEq

/-- Embeds `download_image` (lines 205-217) together with its effect on
the file system (a list of `(path, content)` pairs).  On an early
transport error no file is created and `None` is returned.  Otherwise the
file `filename` is created and chunks are appended until the stream ends
(return the path) or raises (caught at line 215: log, return `None`).
There is no cleanup path: a file created before a mid-stream failure stays
on disk with the partially written content. -/
def download_image (resp : ImageResponse) (filename : String)
    (fs : List (String × List Nat)) : Option String × List (String × List Nat) :=
  match resp with
  | .errEarly => (none, fs)
  | .body chunks failAfter =>
    match failAfter with
    | some k => (none, (filename, (chunks.take k).flatten) :: fs)
    | none => (some filename, (filename, chunks.flatten) :: fs)

/-- The entry id computed by `main` at line 280 just before marking:
`link = post.get('link', ''); entry_id = post.get('id') or link`. -/
def markTimeId (post : Entry) : String :=
  let link := post.link.getD ""
  if truthyOpt post.id then post.id.getD "" else link

/-- Everything the orchestrator needs about one feed of one account for
one run: the feed URL, the fetch/parse collaborators for this run's
retrieval, and the outcome the publish call would have. -/
structure FeedTask where
  feed_url : String
  env : FeedEnv
  publish : PublishOutcome

/-- Embeds the body of the per-feed loop of `main` (lines 271-283): fetch
the latest unposted entry; if there is one, post its link to Twitter and
then — unconditionally, whatever `post_to_twitter` did — mark the entry as
posted; otherwise log that there is nothing new. -/
def processFeed (account_name : String) (delay_seconds : Nat) (elevated : Bool)
    (conn : Store) (task : FeedTask) : Store × List Event :=
  let fetched := get_latest_post task.env task.feed_url conn
  match fetched.1 with
  | some post =>
    let link := post.link.getD ""
    let tr := post_to_twitter task.publish link account_name delay_seconds elevated
    let entry_id := markTimeId post
    let m := mark_entry_as_posted conn task.feed_url entry_id
    (m.1, .processingFeed task.feed_url :: fetched.2
      ++ [.newPostFound task.feed_url link] ++ tr.events
      ++ (if m.2 then [.duplicateWarning task.feed_url entry_id] else []))
  | none =>
    (conn, .processingFeed task.feed_url :: fetched.2 ++ [.noNewPosts task.feed_url])

/-- The per-feed loop of `main`: feeds are processed strictly in order,
each against the store left by the previous one. -/
def processFeeds (account_name : String) (delay_seconds : Nat) (elevated : Bool)
    (conn : Store) : List FeedTask → Store × List Event
  | [] => (conn, [])
  | t :: rest =>
    let r1 := processFeed account_name delay_seconds elevated conn t
    let r2 := processFeeds account_name delay_seconds elevated r1.1 rest
    (r2.1, r1.2 ++ r2.2)

/-- One account's slice of a run: its name, whether
`init_twitter_api` yielded a client (credential check plus
`verify_credentials` succeeded), the probe oracle, the pacing delay, and
its feeds. -/
structure AccountRun where
  account_name : String
  apiOk : Bool
  probe : ProbeEnv
  delay_seconds : Nat
  feeds : List FeedTask

/-- Embeds the body of the account loop of `main` (lines 252-283): an
account whose API client could not be initialized is skipped with a
warning and leaves the store untouched; otherwise the capability probe
runs once and every feed of the account is processed with its result. -/
def processAccount (conn : Store) (a : AccountRun) : Store × List Event :=
  if a.apiOk then
    let elevated := (is_elevated_access a.probe).1
    let r := processFeeds a.account_name a.delay_seconds elevated conn a.feeds
    (r.1, .processingAccount a.account_name
      :: .accountAccess a.account_name elevated :: r.2)
  else
    (conn, [.processingAccount a.account_name, .skipAccount a.account_name])

/-- The account loop of `main`: accounts are processed strictly in order,
each against the store left by the previous one; no account's failure
stops the loop. -/
def processAccounts (conn : Store) : List AccountRun → Store × List Event
  | [] => (conn, [])
  | a :: rest =>
    let r1 := processAccount conn a
    let r2 := processAccounts r1.1 rest
    (r2.1, r1.2 ++ r2.2)

/-- Modelled from the spec's words (§4.2 step 4), for comparison with the
source's scan loop: "Scan entries in order; for each, compute its
identifier (id field, else link).  Entries lacking both are skipped.
Return the first entry whose (feedUrl, identifier) is not already present
in the Dedup Store." -/
def specFirstUnposted (conn : Store) (feed_url : String) (entries : List Entry) :
    Option Entry :=
  entries.find? (fun e =>
    truthyOpt (entryIdOf e)
      && !(entry_already_posted conn feed_url ((entryIdOf e).getD "")))

theorem scanEntries_eq_spec (conn : Store) (feed_url : String) :
    ∀ entries, scanEntries conn feed_url entries = specFirstUnposted conn feed_url entries := by
  intro entries
  induction entries with
  | nil => rfl
  | cons e rest ih =>
    by_cases h : truthyOpt (entryIdOf e) = true
    · by_cases h2 : entry_already_posted conn feed_url ((entryIdOf e).getD "") = true
      · rw [show scanEntries conn feed_url (e :: rest) = scanEntries conn feed_url rest by
          simp [scanEntries, h, h2], ih]
        unfold specFirstUnposted
        rw [List.find?_cons_of_neg]
        simp [h, h2]
      · rw [show scanEntries conn feed_url (e :: rest) = some e by
          simp [scanEntries, h, h2]]
        unfold specFirstUnposted
        rw [List.find?_cons_of_pos]
        simp [h, h2]
    · rw [show scanEntries conn feed_url (e :: rest) = scanEntries conn feed_url rest by
        simp [scanEntries, h], ih]
      unfold specFirstUnposted
      rw [List.find?_cons_of_neg]
      simp [h]

theorem get_latest_post_fst (env : FeedEnv) (feed_url : String) (conn : Store)
    (content : List Nat) (h : env.fetch = .payload content) :
    (get_latest_post env feed_url conn).1
      = scanEntries conn feed_url (env.parse (decoded_feed_content env content)) := by
  unfold get_latest_post
  rw [h]
  cases hs : scanEntries conn feed_url (env.parse (decoded_feed_content env content)) <;>
    simp [hs]

/-- C2: For every feed and every state of the Dedup Store,
`get_latest_post` scans the parsed entries in feed order, computes each
entry's identifier as its id field falling back to its link (Python
truthiness: an absent or empty id falls back to the link), skips entries
that have neither, and returns the first entry whose (feed_url,
identifier) is not in the store; the `Option` return type makes it return
at most one entry per call, and it returns nothing when the feed is empty
or every identifiable entry is already posted. -/
theorem get_latest_post_payload_spec (env : FeedEnv) (feed_url : String) (conn : Store)
    (content : List Nat) (h : env.fetch = .payload content) :
    ((get_latest_post env feed_url conn).1
        = specFirstUnposted conn feed_url (env.parse (decoded_feed_content env content)))
    ∧ (env.parse (decoded_feed_content env content) = [] →
        (get_latest_post env feed_url conn).1 = none)
    ∧ ((∀ e ∈ env.parse (decoded_feed_content env content),
          truthyOpt (entryIdOf e) = true →
          entry_already_posted conn feed_url ((entryIdOf e).getD "") = true) →
        (get_latest_post env feed_url conn).1 = none) := by
  have hfst := get_latest_post_fst env feed_url conn content h
  have hspec := scanEntries_eq_spec conn feed_url
    (env.parse (decoded_feed_content env content))
  refine ⟨hfst.trans hspec, ?_, ?_⟩
  · intro hempty
    rw [hfst, hempty]
    rfl
  · intro hall
    rw [hfst, hspec]
    unfold specFirstUnposted
    rw [List.find?_eq_none]
    intro e he
    by_cases ht : truthyOpt (entryIdOf e) = true
    · simp [ht, hall e he ht]
    · simp [ht]

/-- Fixture: a feed entry with both an id and a link. -/
def exEntry : Entry := ⟨some "entry-1", some "https://example.org/a"⟩

/-- Fixture: a successful fetch whose parse yields exactly `exEntry`. -/
def exEnv : FeedEnv :=
  ⟨.payload [60, 114], fun _ => some "utf-8", fun _ _ => "feed-text", fun _ => [exEntry]⟩

theorem get_latest_post_payload_spec_witness :
    ((get_latest_post exEnv "https://example.org/feed" []).1
        = specFirstUnposted [] "https://example.org/feed"
            (exEnv.parse (decoded_feed_content exEnv [60, 114])))
    ∧ (exEnv.parse (decoded_feed_content exEnv [60, 114]) = [] →
        (get_latest_post exEnv "https://example.org/feed" []).1 = none)
    ∧ ((∀ e ∈ exEnv.parse (decoded_feed_content exEnv [60, 114]),
          truthyOpt (entryIdOf e) = true →
          entry_already_posted [] "https://example.org/feed" ((entryIdOf e).getD "") = true) →
        (get_latest_post exEnv "https://example.org/feed" []).1 = none) :=
  get_latest_post_payload_spec exEnv "https://example.org/feed" [] [60, 114] rfl

/-- C8: For every feed URL, a transport failure during feed retrieval
(timeout, DNS failure, or non-2xx HTTP status — the `RequestException`
outcome) makes `get_latest_post` log the problem tagged with that feed's
URL and return no entry; the function is total, so no exception escapes
past it. -/
theorem get_latest_post_transport_error (env : FeedEnv) (feed_url : String)
    (conn : Store) (h : env.fetch = .transportError) :
    get_latest_post env feed_url conn = (none, [.networkError feed_url]) := by
  unfold get_latest_post
  rw [h]

/-- Fixture: a fetch that fails with a transport error. -/
def errEnv : FeedEnv :=
  ⟨.transportError, fun _ => none, fun _ _ => "", fun _ => []⟩

theorem get_latest_post_transport_error_witness :
    get_latest_post errEnv "https://example.org/feed" []
      = (none, [.networkError "https://example.org/feed"]) :=
  get_latest_post_transport_error errEnv "https://example.org/feed" [] rfl

/-- C9: For every raw feed payload, `get_latest_post` decodes the bytes
using the heuristically detected encoding (`chardet`), and when detection
fails or yields no encoding it decodes as UTF-8 (with lossy replacement,
`errors='replace'`, so the decode collaborator is a total function); the
decoded text is then parsed and scanned, and the whole pipeline is a total
function — nothing raises. -/
theorem encoding_fallback_pipeline (env : FeedEnv) (feed_url : String) (conn : Store)
    (content : List Nat) (h : env.fetch = .payload content) :
    ((get_latest_post env feed_url conn).1
        = scanEntries conn feed_url
            (env.parse (env.decode (chosen_encoding (env.detect content)) content)))
    ∧ (env.detect content = none → chosen_encoding (env.detect content) = "utf-8")
    ∧ (env.detect content = some "" → chosen_encoding (env.detect content) = "utf-8")
    ∧ (∀ s, env.detect content = some s → (s == "") = false →
        chosen_encoding (env.detect content) = s) := by
  refine ⟨get_latest_post_fst env feed_url conn content h, ?_, ?_, ?_⟩
  · intro hd
    rw [hd]
    rfl
  · intro hd
    rw [hd]
    rfl
  · intro s hd hs
    rw [hd]
    simp [chosen_encoding, hs]

/-- Fixture: a fetch whose payload has no detectable encoding. -/
def noEncEnv : FeedEnv :=
  ⟨.payload [255, 254], fun _ => none, fun _ _ => "lossy-text", fun _ => [exEntry]⟩

theorem encoding_fallback_pipeline_witness :
    ((get_latest_post noEncEnv "https://example.org/feed" []).1
        = scanEntries [] "https://example.org/feed"
            (noEncEnv.parse
              (noEncEnv.decode (chosen_encoding (noEncEnv.detect [255, 254])) [255, 254])))
    ∧ (noEncEnv.detect [255, 254] = none →
        chosen_encoding (noEncEnv.detect [255, 254]) = "utf-8")
    ∧ (noEncEnv.detect [255, 254] = some "" →
        chosen_encoding (noEncEnv.detect [255, 254]) = "utf-8")
    ∧ (∀ s, noEncEnv.detect [255, 254] = some s → (s == "") = false →
        chosen_encoding (noEncEnv.detect [255, 254]) = s) :=
  encoding_fallback_pipeline noEncEnv "https://example.org/feed" [] [255, 254] rfl

/-- C5: For every (feed_url, entry_id) key whose row count respects the
SQLite primary key (at most one row), calling `mark_entry_as_posted` twice
with the same key never raises (the function is total): the second call
takes the `IntegrityError` branch — a no-op on the store whose boolean
signals the warning-level log — and afterwards the store contains exactly
one record for that key. -/
theorem mark_entry_twice_idempotent (conn : Store) (feed_url entry_id : String)
    (h : recordCount conn (feed_url, entry_id) ≤ 1) :
    (mark_entry_as_posted (mark_entry_as_posted conn feed_url entry_id).1 feed_url entry_id
        = ((mark_entry_as_posted conn feed_url entry_id).1, true))
    ∧ recordCount (mark_entry_as_posted conn feed_url entry_id).1 (feed_url, entry_id) = 1 := by
  by_cases hm : (feed_url, entry_id) ∈ conn
  · have h1 : mark_entry_as_posted conn feed_url entry_id = (conn, true) := by
      simp [mark_entry_as_posted, hm]
    have hpos : 0 < recordCount conn (feed_url, entry_id) := by
      unfold recordCount
      rw [List.countP_pos_iff]
      exact ⟨(feed_url, entry_id), hm, by simp⟩
    have hcount : recordCount conn (feed_url, entry_id) = 1 := by omega
    rw [h1]
    exact ⟨h1, hcount⟩
  · have h1 : mark_entry_as_posted conn feed_url entry_id
        = ((feed_url, entry_id) :: conn, false) := by
      simp [mark_entry_as_posted, hm]
    have hzero : recordCount conn (feed_url, entry_id) = 0 := by
      unfold recordCount
      rw [List.countP_eq_zero]
      intro a ha
      simp only [decide_eq_true_eq]
      intro hcontra
      exact hm (hcontra ▸ ha)
    rw [h1]
    constructor
    · simp [mark_entry_as_posted]
    · unfold recordCount at hzero ⊢
      rw [List.countP_cons]
      simp [hzero]

theorem mark_entry_twice_idempotent_witness :
    (mark_entry_as_posted
        (mark_entry_as_posted [] "https://example.org/feed" "entry-1").1
        "https://example.org/feed" "entry-1"
      = ((mark_entry_as_posted [] "https://example.org/feed" "entry-1").1, true))
    ∧ recordCount (mark_entry_as_posted [] "https://example.org/feed" "entry-1").1
        ("https://example.org/feed", "entry-1") = 1 :=
  mark_entry_twice_idempotent [] "https://example.org/feed" "entry-1" (by decide)

theorem scanEntries_some_unposted (conn : Store) (feed_url : String) :
    ∀ entries e, scanEntries conn feed_url entries = some e →
      truthyOpt (entryIdOf e) = true
        ∧ entry_already_posted conn feed_url ((entryIdOf e).getD "") = false := by
  intro entries
  induction entries with
  | nil => intro e h; simp [scanEntries] at h
  | cons a rest ih =>
    intro e h
    by_cases ht : truthyOpt (entryIdOf a) = true
    · by_cases hp : entry_already_posted conn feed_url ((entryIdOf a).getD "") = true
      · rw [show scanEntries conn feed_url (a :: rest) = scanEntries conn feed_url rest by
          simp [scanEntries, ht, hp]] at h
        exact ih e h
      · rw [show scanEntries conn feed_url (a :: rest) = some a by
          simp [scanEntries, ht, hp]] at h
        cases h
        exact ⟨ht, by simpa using hp⟩
    · rw [show scanEntries conn feed_url (a :: rest) = scanEntries conn feed_url rest by
        simp [scanEntries, ht]] at h
      exact ih e h

theorem get_latest_post_some_unposted (env : FeedEnv) (feed_url : String) (conn : Store)
    (e : Entry) (h : (get_latest_post env feed_url conn).1 = some e) :
    truthyOpt (entryIdOf e) = true
      ∧ entry_already_posted conn feed_url ((entryIdOf e).getD "") = false := by
  cases hf : env.fetch with
  | transportError =>
    rw [show get_latest_post env feed_url conn = (none, [.networkError feed_url]) by
      unfold get_latest_post; rw [hf]] at h
    simp at h
  | payload content =>
    have h1 := get_latest_post_fst env feed_url conn content hf
    rw [h] at h1
    exact scanEntries_some_unposted conn feed_url _ e h1.symm

theorem entryIdOf_eq_markTimeId (e : Entry) (h : truthyOpt (entryIdOf e) = true) :
    entryIdOf e = some (markTimeId e) := by
  unfold entryIdOf pyOrOpt at h ⊢
  unfold markTimeId
  by_cases hid : truthyOpt e.id = true
  · cases hi : e.id with
    | none => rw [hi] at hid; simp [truthyOpt] at hid
    | some s =>
      rw [hi] at hid
      simp [hid, hi]
  · simp only [hid, if_false, Bool.not_eq_true] at h ⊢
    cases hl : e.link with
    | none => rw [hl] at h; simp [truthyOpt] at h
    | some s => simp [hid, hl]

/-- C6: Round trip of fetch and mark.  If `get_latest_post` returns an
entry for a feed, then (a) marking it with the identifier `main` computes
at mark time (`post.get('id') or post.get('link', '')`) puts that
(feed_url, identifier) into the store, and (b) for every later store that
contains this record — in particular the store just after marking, or the
same persisted store in a later run, since records are never removed — no
`get_latest_post` call on the same feed URL, with any fetch environment,
returns that entry again. -/
theorem fetched_entry_never_returned_after_mark (env : FeedEnv) (feed_url : String)
    (conn : Store) (e : Entry)
    (h : (get_latest_post env feed_url conn).1 = some e) :
    ((feed_url, markTimeId e) ∈ (mark_entry_as_posted conn feed_url (markTimeId e)).1)
    ∧ ∀ (env2 : FeedEnv) (conn2 : Store), (feed_url, markTimeId e) ∈ conn2 →
        (get_latest_post env2 feed_url conn2).1 ≠ some e := by
  obtain ⟨ht, _⟩ := get_latest_post_some_unposted env feed_url conn e h
  have hid : entryIdOf e = some (markTimeId e) := entryIdOf_eq_markTimeId e ht
  constructor
  · unfold mark_entry_as_posted
    by_cases hm : (feed_url, markTimeId e) ∈ conn <;> simp [hm]
  · intro env2 conn2 hmem hcontra
    obtain ⟨_, hp2⟩ := get_latest_post_some_unposted env2 feed_url conn2 e hcontra
    rw [hid] at hp2
    simp only [Option.getD_some, entry_already_posted, decide_eq_false_iff_not] at hp2
    exact hp2 hmem

theorem fetched_entry_never_returned_after_mark_witness :
    ((("https://example.org/feed", markTimeId exEntry)
        ∈ (mark_entry_as_posted [] "https://example.org/feed" (markTimeId exEntry)).1))
    ∧ (get_latest_post exEnv "https://example.org/feed"
        [("https://example.org/feed", markTimeId exEntry)]).1 ≠ some exEntry :=
  ⟨(fetched_entry_never_returned_after_mark exEnv "https://example.org/feed" [] exEntry rfl).1,
   (fetched_entry_never_returned_after_mark exEnv "https://example.org/feed" [] exEntry rfl).2
     exEnv [("https://example.org/feed", markTimeId exEntry)] (List.mem_singleton.mpr rfl)⟩

/-- The type of the first raising call of the probe's
upload-post-retract sequence, `none` when the whole sequence succeeds. -/
def firstProbeFailure (env : ProbeEnv) : Option ApiResult :=
  match env.upload with
  | .ok =>
    match env.post with
    | .ok =>
      match env.destroy with
      | .ok => none
      | r => some r
    | r => some r
  | r => some r

/-- C7: For every account, `is_elevated_access` classifies the account as
restricted (returns `false`) when the probe receives a permission-denied
(`Forbidden`) response, classifies it as restricted after logging an error
on any other probe failure, and classifies it as elevated (returns `true`)
exactly when the probe's upload-post-retract sequence succeeds end to
end. -/
theorem probe_classification (env : ProbeEnv) :
    ((is_elevated_access env).1 = true
        ↔ env.upload = .ok ∧ env.post = .ok ∧ env.destroy = .ok)
    ∧ (firstProbeFailure env = some .forbidden →
        is_elevated_access env = (false, .freeTierInfo))
    ∧ (firstProbeFailure env = some .otherError →
        is_elevated_access env = (false, .errorLogged)) := by
  obtain ⟨u, p, d⟩ := env
  cases u <;> cases p <;> cases d <;> decide

theorem probe_classification_witness :
    (is_elevated_access ⟨.ok, .forbidden, .ok⟩ = (false, .freeTierInfo))
    ∧ (is_elevated_access ⟨.ok, .ok, .otherError⟩ = (false, .errorLogged))
    ∧ (is_elevated_access ⟨.ok, .ok, .ok⟩).1 = true :=
  ⟨(probe_classification ⟨.ok, .forbidden, .ok⟩).2.1 rfl,
   (probe_classification ⟨.ok, .ok, .otherError⟩).2.2 rfl,
   (probe_classification ⟨.ok, .ok, .ok⟩).1.mpr ⟨rfl, rfl, rfl⟩⟩

/-- C10: The publisher's outbound post is independent of the capability
flag: for every publish outcome, link, account and pacing delay,
`post_to_twitter` issues exactly one `update_status` call whose status
text is the entry's link and whose media list is empty, and the calls it
issues with `elevated` are identical to the calls it issues with the
opposite flag (the two branches differ only in their debug log line). -/
theorem publish_independent_of_capability (outcome : PublishOutcome)
    (link account_name : String) (delay_seconds : Nat) (elevated : Bool) :
    ((post_to_twitter outcome link account_name delay_seconds elevated).calls
        = [⟨link, []⟩])
    ∧ (post_to_twitter outcome link account_name delay_seconds elevated).calls
        = (post_to_twitter outcome link account_name delay_seconds (!elevated)).calls := by
  cases elevated <;> cases outcome <;>
    by_cases hl : (link == "") = true <;>
      simp [post_to_twitter, hl]

theorem processFeeds_cons (account_name : String) (delay_seconds : Nat) (elevated : Bool)
    (conn : Store) (t : FeedTask) (rest : List FeedTask) :
    processFeeds account_name delay_seconds elevated conn (t :: rest)
      = ((processFeeds account_name delay_seconds elevated
            (processFeed account_name delay_seconds elevated conn t).1 rest).1,
         (processFeed account_name delay_seconds elevated conn t).2
           ++ (processFeeds account_name delay_seconds elevated
                (processFeed account_name delay_seconds elevated conn t).1 rest).2) := rfl

theorem processAccounts_cons (conn : Store) (a : AccountRun) (rest : List AccountRun) :
    processAccounts conn (a :: rest)
      = ((processAccounts (processAccount conn a).1 rest).1,
         (processAccount conn a).2
           ++ (processAccounts (processAccount conn a).1 rest).2) := rfl

theorem processAccount_skip (conn : Store) (a : AccountRun) (h : a.apiOk = false) :
    processAccount conn a
      = (conn, [Event.processingAccount a.account_name,
                Event.skipAccount a.account_name]) := by
  unfold processAccount
  rw [h]
  simp

theorem processFeed_starts_processing (account_name : String) (delay_seconds : Nat)
    (elevated : Bool) (conn : Store) (t : FeedTask) :
    Event.processingFeed t.feed_url
      ∈ (processFeed account_name delay_seconds elevated conn t).2 := by
  unfold processFeed
  cases hres : (get_latest_post t.env t.feed_url conn).1 <;> simp [hres]

theorem processFeeds_reaches_every_feed (account_name : String) (delay_seconds : Nat)
    (elevated : Bool) :
    ∀ (tasks : List FeedTask) (conn : Store) (t : FeedTask), t ∈ tasks →
      Event.processingFeed t.feed_url
        ∈ (processFeeds account_name delay_seconds elevated conn tasks).2 := by
  intro tasks
  induction tasks with
  | nil => intro conn t h; simp at h
  | cons a rest ih =>
    intro conn t h
    rw [processFeeds_cons]
    rcases List.mem_cons.mp h with heq | hmem
    · subst heq
      exact List.mem_append_left _
        (processFeed_starts_processing account_name delay_seconds elevated conn t)
    · exact List.mem_append_right _
        (ih (processFeed account_name delay_seconds elevated conn a).1 t hmem)

/-- C3: Failure isolation in the orchestrator.  (a) An account whose
credential check (`init_twitter_api`) fails is skipped with a warning and
the remaining accounts are processed exactly as they would have been
without it — in particular, if account A's credential check fails and
account B's succeeds, B's feeds are fully processed from the same store
and B's posts are recorded.  (b) A feed whose fetch fails with a
transport error only logs and yields nothing, and the remaining feeds are
processed exactly as before from an unchanged store.  (c) Whatever each
feed's fetch, publish, or mark outcome is (every such failure is caught
inside its step and surfaces only as an outcome value), the per-feed loop
reaches every configured feed of the account. -/
theorem orchestrator_failure_isolation :
    (∀ (conn : Store) (a : AccountRun) (rest : List AccountRun), a.apiOk = false →
        processAccounts conn (a :: rest)
          = ((processAccounts conn rest).1,
             Event.processingAccount a.account_name :: Event.skipAccount a.account_name
               :: (processAccounts conn rest).2))
    ∧ (∀ (account_name : String) (delay_seconds : Nat) (elevated : Bool) (conn : Store)
          (t : FeedTask) (rest : List FeedTask), t.env.fetch = .transportError →
        processFeeds account_name delay_seconds elevated conn (t :: rest)
          = ((processFeeds account_name delay_seconds elevated conn rest).1,
             Event.processingFeed t.feed_url :: Event.networkError t.feed_url
               :: Event.noNewPosts t.feed_url
               :: (processFeeds account_name delay_seconds elevated conn rest).2))
    ∧ (∀ (account_name : String) (delay_seconds : Nat) (elevated : Bool)
          (tasks : List FeedTask) (conn : Store) (t : FeedTask), t ∈ tasks →
        Event.processingFeed t.feed_url
          ∈ (processFeeds account_name delay_seconds elevated conn tasks).2) := by
  refine ⟨?_, ?_, ?_⟩
  · intro conn a rest h
    rw [processAccounts_cons, processAccount_skip conn a h]
    rfl
  · intro account_name delay_seconds elevated conn t rest h
    have hfeed : processFeed account_name delay_seconds elevated conn t
        = (conn, [Event.processingFeed t.feed_url, Event.networkError t.feed_url,
                  Event.noNewPosts t.feed_url]) := by
      unfold processFeed get_latest_post
      rw [h]
      rfl
    rw [processFeeds_cons, hfeed]
    rfl
  · intro account_name delay_seconds elevated tasks conn t h
    exact processFeeds_reaches_every_feed account_name delay_seconds elevated tasks conn t h

/-- Fixture: a feed task whose fetch succeeds with one new entry and whose
publish call succeeds. -/
def okTask : FeedTask := ⟨"https://example.org/feed", exEnv, .ok⟩

/-- Fixture: account A, whose credential check fails. -/
def acctA : AccountRun := ⟨"A", false, ⟨.ok, .ok, .ok⟩, 30, [okTask]⟩

/-- Fixture: account B, whose credential check succeeds. -/
def acctB : AccountRun := ⟨"B", true, ⟨.forbidden, .ok, .ok⟩, 30, [okTask]⟩

theorem orchestrator_failure_isolation_witness :
    processAccounts [] [acctA, acctB]
      = ((processAccounts [] [acctB]).1,
         Event.processingAccount "A" :: Event.skipAccount "A"
           :: (processAccounts [] [acctB]).2) :=
  orchestrator_failure_isolation.1 [] acctA [acctB] rfl

/-- Fixture: a feed task whose fetch succeeds with one new entry but whose
publish call fails with a `TweepyException`. -/
def failTask : FeedTask := ⟨"https://example.org/feed", exEnv, .tweepyError⟩

/-- C1: Evaluation of the per-feed step of `main` at a feed whose publish
call fails.  `post_to_twitter` swallows the `TweepyException` (lines
236-237) and returns nothing either way, and `main` then calls
`mark_entry_as_posted` unconditionally (lines 279-281), so the entry is
recorded as posted even though the publish failed — contradicting the
claim that a failed publish leaves the entry unmarked. -/
theorem marked_posted_despite_publish_failure :
    ((processFeed "acct" 30 false [] failTask).1
        = [("https://example.org/feed", "entry-1")])
    ∧ Event.publishError "acct" ∈ (processFeed "acct" 30 false [] failTask).2 := by
  constructor
  · rfl
  · decide

/-- C4 counterexample: an image staging attempt whose transfer fails after
one chunk was written (`iter_content` raises mid-stream).  The attempt
returns no path — the attachment failed — yet the temporary file is still
on disk with the partially written bytes after the call returns:
`download_image` has no cleanup on this exit path, refuting "the temporary
file is deleted on every exit path". -/
theorem temp_image_left_after_failed_download :
    ((download_image (.body [[1, 2], [3, 4]] (some 1)) "temp_image_1700000000.jpg" []).1
        = none)
    ∧ ("temp_image_1700000000.jpg", [1, 2])
        ∈ (download_image (.body [[1, 2], [3, 4]] (some 1))
            "temp_image_1700000000.jpg" []).2 := by
  constructor
  · rfl
  · decide

/-- C4 (amended): The publish attempt itself stages nothing — every
`post_to_twitter` call issues a single text-only status update and
performs no file operation, so no publish-scoped temporary artifact exists
after it returns.  The image download helper (which the publisher never
calls) creates no file when the transport fails before the file is
opened, but when the transfer fails after the file was created it returns
no path and leaves the partially written temporary file on disk — it
deletes nothing on any path. -/
theorem publish_stages_nothing_download_leaves_partial_file
    (outcome : PublishOutcome) (link account_name : String) (delay_seconds : Nat)
    (elevated : Bool) (chunks : List (List Nat)) (k : Nat) (filename : String)
    (fs : List (String × List Nat)) :
    ((post_to_twitter outcome link account_name delay_seconds elevated).calls
        = [⟨link, []⟩])
    ∧ download_image .errEarly filename fs = (none, fs)
    ∧ download_image (.body chunks (some k)) filename fs
        = (none, (filename, (chunks.take k).flatten) :: fs)
    ∧ (filename, (chunks.take k).flatten)
        ∈ (download_image (.body chunks (some k)) filename fs).2 := by
  refine ⟨?_, rfl, rfl, ?_⟩
  · cases elevated <;> cases outcome <;>
      by_cases hl : (link == "") = true <;>
        simp [post_to_twitter, hl]
  · unfold download_image
    exact List.mem_cons_self _ _

end Rss2x
